import Mathlib

/-!
Verification of the calendar availability engine of `packages/ui/src` (the
`CalendarService` class).

Times are modelled as JavaScript epoch milliseconds (`Int`).  An IANA timezone
is modelled by its fixed UTC offset in minutes (the engine is used with
DST-free zones such as `Asia/Kolkata` = +330; the spec itself notes the
implementation's hour-shift approach is only correct away from DST
transitions).  JavaScript `Date` accessors such as `getMinutes()` read the
*server's* local timezone, so the embedding threads the server's UTC offset
(`serverOff`, in minutes) through every function that the source implements
with those accessors.  The ambient `new Date()` ("now") is passed explicitly.
On `Int`, `/` and `%` are Euclidean division/remainder, which for the
positive divisors used here coincide with the floor semantics of JavaScript's
`Date` arithmetic.  Provider calls (`calendar.events.*`, `freebusy.query`)
are modelled by their results (`Except` values), since the engine performs a
single blocking round-trip per call.
-/

namespace Scheduler

def msPerSec : Int := 1000
def msPerMin : Int := 60000
def msPerHour : Int := 3600000
def msPerDay : Int := 86400000

/-- `getHourInTimezone` (source line 796): local hour 0..23 in the zone. -/
def getHourInTimezone (tz t : Int) : Int :=
  ((t + tz * msPerMin) / msPerHour) % 24

/-- `getDayInTimezone` (source line 809): weekday 0=Sun..6=Sat in the zone
(epoch 1970-01-01 was a Thursday, weekday 4). -/
def getDayInTimezone (tz t : Int) : Int :=
  ((t + tz * msPerMin) / msPerDay + 4) % 7

/-- `getDateStringInTimezone` (source line 839): the source produces a
`YYYY-MM-DD` string; two instants get the same string iff they fall on the
same local calendar day, so we model the string by the local day number. -/
def getDateStringInTimezone (tz t : Int) : Int :=
  (t + tz * msPerMin) / msPerDay

/-- JavaScript `Date.prototype.getMinutes`, as observed by a server whose
local zone has UTC offset `serverOff` minutes. -/
def jsGetMinutes (serverOff t : Int) : Int :=
  ((t + serverOff * msPerMin) / msPerMin) % 60

/-- JavaScript `Date.prototype.getSeconds` on the server. -/
def jsGetSeconds (serverOff t : Int) : Int :=
  ((t + serverOff * msPerMin) / msPerSec) % 60

/-- JavaScript `Date.prototype.getMilliseconds` on the server. -/
def jsGetMilliseconds (serverOff t : Int) : Int :=
  (t + serverOff * msPerMin) % msPerSec

/-- `setHourInTimezone` (source lines 823-834): shift the instant by whole
hours so that its hour in `tz` becomes `hour`, then zero out the
minutes/seconds/milliseconds *as read by the server's clock*. -/
def setHourInTimezone (serverOff tz t hour : Int) : Int :=
  let currentHour := getHourInTimezone tz t
  let hourDiff := hour - currentHour
  let result := t + hourDiff * msPerHour
  let mins := jsGetMinutes serverOff result
  let secs := jsGetSeconds serverOff result
  let ms := jsGetMilliseconds serverOff result
  result - mins * msPerMin - secs * msPerSec - ms

/-- Time-of-day preferences accepted by the engine. -/
inductive TimePreference where
  | morning | afternoon | evening | any
deriving DecidableEq, Repr

/-- `getStartHourFromPreference` (source lines 780-791). -/
def getStartHourFromPreference : Option TimePreference → Int
  | some .morning => 9
  | some .afternoon => 13
  | some .evening => 17
  | _ => 9

/-- A half-open busy/free interval `[start, stop)` (source field names are
`start`/`end`; `end` is a Lean keyword, hence `stop`). -/
structure TimeInterval where
  start : Int
  stop : Int
deriving DecidableEq, Repr

/-- `TimeSlot` (source lines 234-238). -/
structure TimeSlot where
  start : Int
  stop : Int
  available : Bool
deriving DecidableEq, Repr

/-- Options of `calculateFreeSlotsAdvanced` (source lines 656-664), with the
timezone already resolved to its UTC offset in minutes. -/
structure SlotOptions where
  timePreference : Option TimePreference
  notBefore : Option Int
  notAfter : Option Int
  excludeDays : List Int
  bufferBefore : Option Int
  bufferAfter : Option Int
  timezone : Option Int
deriving Repr

/-- Options with every field absent. -/
def noOptions : SlotOptions := ⟨none, none, none, [], none, none, none⟩

/-- The busy-overlap test of the scanner (source lines 755-760): the three
sub-cases, verbatim. -/
def busyOverlap (bufferedStart bufferedEnd bs be : Int) : Bool :=
  (decide (bufferedStart ≥ bs) && decide (bufferedStart < be)) ||
  (decide (bufferedEnd > bs) && decide (bufferedEnd ≤ be)) ||
  (decide (bufferedStart ≤ bs) && decide (bufferedEnd ≥ be))

/-- `isSlotFree` at a given cursor (source lines 751-760). -/
def isSlotFree (busy : List TimeInterval) (bufferedStart bufferedEnd : Int) : Bool :=
  !busy.any fun b => busyOverlap bufferedStart bufferedEnd b.start b.stop

/-- Everything the scan loop of `calculateFreeSlotsAdvanced` reads but never
writes, resolved exactly as in source lines 666-704. -/
structure ScanConfig where
  serverOff : Int
  timezone : Int
  busy : List TimeInterval
  endDate : Int
  slotDuration : Int
  bufferBefore : Int
  bufferAfter : Int
  startHour : Int
  endHour : Int
  userSpecifiedEndHour : Bool
  excludeDays : List Int
  isSingleDaySearch : Bool
deriving Repr

/-- The `advanceToNextDay` helper (source lines 713-716). -/
def advanceToNextDay (cfg : ScanConfig) (c : Int) : Int :=
  setHourInTimezone cfg.serverOff cfg.timezone (c + msPerDay) cfg.startHour

/-- The scan loop of `calculateFreeSlotsAdvanced` (source lines 707-772), as
a fuel-indexed structural recursion (the source's `while` loop; the wrapper
supplies enough fuel for every terminating run, since each iteration advances
the cursor by at least 1ms).  Besides the accumulated slots it returns the
number of cursor positions at which the busy-overlap check was evaluated
(raw candidates examined). -/
def scanLoop (cfg : ScanConfig) : Nat → Int → List TimeSlot → List TimeSlot × Nat
  | 0, _, acc => (acc, 0)
  | fuel + 1, c, acc =>
    if c < cfg.endDate ∧ acc.length < 10 then
      -- `dayOfWeek`/`hour`/`slotEnd`/`slotEndHour` of the source are inlined
      if getDayInTimezone cfg.timezone c ∈ cfg.excludeDays then
        scanLoop cfg fuel (advanceToNextDay cfg c) acc
      else if ¬cfg.isSingleDaySearch ∧
          (getDayInTimezone cfg.timezone c = 0 ∨ getDayInTimezone cfg.timezone c = 6) then
        scanLoop cfg fuel (advanceToNextDay cfg c) acc
      else if getHourInTimezone cfg.timezone c < cfg.startHour ∨
          getHourInTimezone cfg.timezone c > cfg.endHour then
        if getHourInTimezone cfg.timezone c > cfg.endHour then
          scanLoop cfg fuel (advanceToNextDay cfg c) acc
        else
          scanLoop cfg fuel (setHourInTimezone cfg.serverOff cfg.timezone c cfg.startHour) acc
      else if ¬cfg.userSpecifiedEndHour ∧
          (getHourInTimezone cfg.timezone (c + cfg.slotDuration + cfg.bufferAfter) > cfg.endHour ∨
            (getHourInTimezone cfg.timezone (c + cfg.slotDuration + cfg.bufferAfter) = cfg.endHour ∧
              jsGetMinutes cfg.serverOff (c + cfg.slotDuration + cfg.bufferAfter) > 0)) then
        scanLoop cfg fuel (advanceToNextDay cfg c) acc
      else
        Prod.map id (· + 1)
          (scanLoop cfg fuel (c + 30 * msPerMin)
            (if isSlotFree cfg.busy (c - cfg.bufferBefore)
                (c + cfg.slotDuration + cfg.bufferAfter) then
              acc ++ [⟨c, c + cfg.slotDuration, true⟩]
            else acc))
    else
      (acc, 0)

/-- The "already past `startHour` today" rounding (source lines 687-697):
round `now` up to the next half-hour boundary of the *server's* wall clock
(no change when the server-local minutes component is 0). -/
def roundUpToHalfHour (serverOff now : Int) : Int :=
  let minutes := jsGetMinutes serverOff now
  if 0 < minutes ∧ minutes ≤ 30 then
    -- currentTime.setMinutes(30, 0, 0)
    now - jsGetMilliseconds serverOff now - jsGetSeconds serverOff now * msPerSec
        - minutes * msPerMin + 30 * msPerMin
  else if minutes > 30 then
    -- currentTime += (60 - minutes) minutes; then setMinutes(0, 0, 0)
    let t := now + (60 - minutes) * msPerMin
    t - jsGetMilliseconds serverOff t - jsGetSeconds serverOff t * msPerSec
      - jsGetMinutes serverOff t * msPerMin
  else now

/-- The timezone resolution `options?.timezone || 'Asia/Kolkata'`
(source line 671), with `Asia/Kolkata` = UTC+5:30 = +330 minutes. -/
def resolvedTimezone (opts : SlotOptions) : Int := opts.timezone.getD 330

/-- `startHour = options?.notBefore ?? getStartHourFromPreference(...)`
(source line 679). -/
def resolvedStartHour (opts : SlotOptions) : Int :=
  opts.notBefore.getD (getStartHourFromPreference opts.timePreference)

/-- `endHour = options?.notAfter ?? 18` (source line 699). -/
def resolvedEndHour (opts : SlotOptions) : Int := opts.notAfter.getD 18

/-- The loop-invariant configuration of `calculateFreeSlotsAdvanced`
(source lines 666-704). -/
def scanConfigOf (serverOff : Int) (busyPeriods : List TimeInterval)
    (startDate endDate duration : Int) (opts : SlotOptions) : ScanConfig :=
  ⟨serverOff, resolvedTimezone opts,
   busyPeriods.insertionSort (fun a b => a.start ≤ b.start), endDate,
   duration * msPerMin,
   (opts.bufferBefore.getD 0) * msPerMin, (opts.bufferAfter.getD 0) * msPerMin,
   resolvedStartHour opts, resolvedEndHour opts, opts.notAfter.isSome,
   opts.excludeDays,
   getDateStringInTimezone (resolvedTimezone opts) startDate =
       getDateStringInTimezone (resolvedTimezone opts) endDate ∨
     endDate - startDate < msPerDay⟩

/-- Initial cursor of `calculateFreeSlotsAdvanced` (source lines 676-697):
start of the scan at `startHour` on `startDate`'s local day, snapped forward
when the search starts today and `now` is already past that point. -/
def initialCursor (serverOff startDate : Int) (opts : SlotOptions) (now : Int) : Int :=
  let timezone := resolvedTimezone opts
  let startHour := resolvedStartHour opts
  let c0 := setHourInTimezone serverOff timezone startDate startHour
  if getDateStringInTimezone timezone now = getDateStringInTimezone timezone startDate ∧
      now > c0 then
    roundUpToHalfHour serverOff now
  else c0

/-- Fuel sufficient for any terminating run: the cursor advances by at least
1ms per iteration, and starts no more than two days before `startDate`. -/
def scanFuel (startDate endDate : Int) : Nat :=
  (endDate - startDate + 2 * msPerDay).toNat + 1

/-- `calculateFreeSlotsAdvanced` (source lines 651-775) together with the
count of raw candidates examined. -/
def calculateFreeSlotsAdvancedFull (serverOff : Int) (busyPeriods : List TimeInterval)
    (startDate endDate duration : Int) (opts : SlotOptions) (now : Int) :
    List TimeSlot × Nat :=
  scanLoop (scanConfigOf serverOff busyPeriods startDate endDate duration opts)
    (scanFuel startDate endDate) (initialCursor serverOff startDate opts now) []

/-- `calculateFreeSlotsAdvanced` (source lines 651-775): the returned value,
`freeSlots.slice(0, 5)`. -/
def calculateFreeSlotsAdvanced (serverOff : Int) (busyPeriods : List TimeInterval)
    (startDate endDate duration : Int) (opts : SlotOptions) (now : Int) :
    List TimeSlot :=
  (calculateFreeSlotsAdvancedFull serverOff busyPeriods startDate endDate
      duration opts now).1.take 5

/-- The branch conditions that hold at any cursor position where the scan
loop emits a slot. -/
def emitConditions (cfg : ScanConfig) (c : Int) : Prop :=
  c < cfg.endDate ∧
  cfg.startHour ≤ getHourInTimezone cfg.timezone c ∧
  getHourInTimezone cfg.timezone c ≤ cfg.endHour ∧
  (¬cfg.userSpecifiedEndHour →
    ¬(getHourInTimezone cfg.timezone (c + cfg.slotDuration + cfg.bufferAfter) > cfg.endHour ∨
      (getHourInTimezone cfg.timezone (c + cfg.slotDuration + cfg.bufferAfter) = cfg.endHour ∧
        jsGetMinutes cfg.serverOff (c + cfg.slotDuration + cfg.bufferAfter) > 0))) ∧
  isSlotFree cfg.busy (c - cfg.bufferBefore) (c + cfg.slotDuration + cfg.bufferAfter) = true

/-- Options selecting the UTC zone and nothing else. -/
def utcOptions : SlotOptions := ⟨none, none, none, [], none, none, some 0⟩

/-- Options selecting the UTC zone with an explicit `notAfter = 10`. -/
def notAfter10Options : SlotOptions := ⟨none, none, some 10, [], none, none, some 0⟩

/-! ## The provider-facing façade -/

/-- A provider-side failure: the optional HTTP status and the message the
source inspects (`error?.response?.status`, `error?.message`). -/
structure ProviderError where
  status : Option Int
  message : String
deriving DecidableEq, Repr

/-- A raw event as returned by the provider (`event.summary` may be absent). -/
structure RawEvent where
  id : String
  summary : Option String
  description : Option String
  startTime : Int
  endTime : Int
  attendees : List String
deriving DecidableEq, Repr

/-- `CalendarEvent` (source lines 249-256). -/
structure CalendarEvent where
  id : String
  title : String
  description : Option String
  start : Int
  stop : Int
  attendees : List String
deriving DecidableEq, Repr

/-- The per-item mapping used by `searchEvents` (source lines 340-347):
a missing summary becomes the empty title. -/
def mapRawEvent (e : RawEvent) : CalendarEvent :=
  ⟨e.id, e.summary.getD "", e.description, e.startTime, e.endTime, e.attendees⟩

/-- `getEvents` (source lines 295-321): on provider failure it rethrows, with
a distinct message for an expired credential (HTTP 401).  The per-item
mapping (source lines 305-312) passes `event.summary` through; an absent
summary is modelled as the empty title, as in `searchEvents`. -/
def getEvents (listResult : Except ProviderError (List RawEvent)) :
    Except String (List CalendarEvent) :=
  match listResult with
  | .error e =>
    if e.status = some 401 then
      .error "Calendar authentication expired. Please reconnect your Google account."
    else
      .error ("Failed to fetch calendar events: " ++ e.message)
  | .ok items => .ok (items.map mapRawEvent)

/-- `searchEvents` (source lines 326-352): on provider failure the catch
block returns the empty array. -/
def searchEvents (listResult : Except ProviderError (List RawEvent)) :
    List CalendarEvent :=
  match listResult with
  | .error _ => []
  | .ok items => items.map mapRawEvent

/-- `getLastMeetingOfDay` (source lines 357-376): fetch the events of the
timezone-correct day (via `getEvents`, which throws on provider failure),
return the event with the latest end, `none` when the day is empty or the
fetch failed.  `fetch timeMin timeMax` models `calendar.events.list` for the
computed day boundaries. -/
def getLastMeetingOfDay (serverOff : Int)
    (fetch : Int → Int → Except ProviderError (List RawEvent))
    (date timezone : Int) : Option CalendarEvent :=
  let startOfDay := setHourInTimezone serverOff timezone date 0
  let endOfDay := setHourInTimezone serverOff timezone date 23
  let endOfDayFull := endOfDay + 59 * msPerMin + 59 * msPerSec + 999
  match getEvents (fetch startOfDay endOfDayFull) with
  | .error _ => none
  | .ok events =>
    if events.length = 0 then none
    else (events.insertionSort (fun a b => b.stop ≤ a.stop)).head?

/-- `findAvailableSlotsAdvanced` (source lines 381-422): run the free/busy
query, then the pure scanner; any failure is rethrown as
`'Failed to find available slots'`.  `freeBusyQuery` models the result of
`calendar.freebusy.query` already mapped to intervals (source lines
396-410). -/
def findAvailableSlotsAdvanced (serverOff : Int)
    (freeBusyQuery : Except ProviderError (List TimeInterval))
    (duration startDate endDate : Int) (opts : SlotOptions) (now : Int) :
    Except String (List TimeSlot) :=
  match freeBusyQuery with
  | .error _ => .error "Failed to find available slots"
  | .ok busyPeriods =>
    .ok (calculateFreeSlotsAdvanced serverOff busyPeriods startDate endDate
      duration opts now)

/-- `deleteMeeting` (source lines 519-530): any provider failure is caught
and rethrown as the one generic message.  `providerDelete` models the result
of `calendar.events.delete` for the given id. -/
def deleteMeeting (providerDelete : Except ProviderError Unit) :
    Except String Unit :=
  match providerDelete with
  | .error _ => .error "Failed to delete meeting"
  | .ok _ => .ok ()

end Scheduler

/-! ## Arithmetic helpers -/

namespace Scheduler

/-- Composition of Euclidean divisions by positive divisors. -/
theorem int_ediv_ediv (w a b : Int) (ha : 0 < a) (hb : 0 < b) :
    w / a / b = w / (a * b) := by
  have h1 := Int.ediv_add_emod w a
  have h2 := Int.ediv_add_emod (w / a) b
  have hr1 := Int.emod_nonneg w (by omega : a ≠ 0)
  have hr1' := Int.emod_lt_of_pos w ha
  have hr2 := Int.emod_nonneg (w / a) (by omega : b ≠ 0)
  have hr2' := Int.emod_lt_of_pos (w / a) hb
  have hab : 0 < a * b := by positivity
  have key := (@Int.ediv_emod_unique w (a * b) (a * (w / a % b) + w % a) (w / a / b) hab).mpr
    ⟨by nlinarith, by nlinarith, by nlinarith⟩
  exact key.1.symm

/-- Splitting a remainder by a product of positive divisors. -/
theorem int_emod_mul_decomp (w a b : Int) (ha : 0 < a) (hb : 0 < b) :
    w % (a * b) = a * (w / a % b) + w % a := by
  have h := int_ediv_ediv w a b ha hb
  rw [Int.emod_def, Int.emod_def, Int.emod_def, ← h]
  ring

/-- The minutes/seconds/milliseconds read by the server clock decompose the
offset of `v` within its server-local hour. -/
theorem jsSubHour_decomp (so v : Int) :
    jsGetMinutes so v * msPerMin + jsGetSeconds so v * msPerSec + jsGetMilliseconds so v
      = (v + so * msPerMin) % msPerHour := by
  have h1 := int_emod_mul_decomp (v + so * 60000) 60000 60 (by norm_num) (by norm_num)
  have h2 := int_emod_mul_decomp (v + so * 60000) 1000 60 (by norm_num) (by norm_num)
  norm_num at h1 h2
  simp only [jsGetMinutes, jsGetSeconds, jsGetMilliseconds, msPerMin, msPerSec, msPerHour]
  linarith

/-- Closed form of `setHourInTimezone`: shift by whole hours, then truncate to
the server clock's hour boundary. -/
theorem setHourInTimezone_eq (so tz t h : Int) :
    setHourInTimezone so tz t h =
      t + (h - getHourInTimezone tz t) * msPerHour
        - (t + (h - getHourInTimezone tz t) * msPerHour + so * msPerMin) % msPerHour := by
  simp only [setHourInTimezone]
  linarith [jsSubHour_decomp so (t + (h - getHourInTimezone tz t) * msPerHour)]

end Scheduler

namespace Scheduler

/-- Claim C1 (amended).  `setHourInTimezone(t, h, zone)` returns the instant
whose wall-clock reading in the zone is exactly `h:00:00.000` on the same
local calendar date as `t` — *provided* the server's UTC offset agrees with
the zone's modulo 60 minutes (as when the server itself runs in the target
zone), since the source zeroes the minutes/seconds of the *server's* clock.
In particular, for `Asia/Kolkata` (+330) with the server also at +330, the
result for hour 9 is 03:30:00.000 UTC on `t`'s local date, for every `t`. -/
theorem c1_setHourInTimezone_wallclock (so tz t h : Int)
    (hcong : (so - tz) % 60 = 0) :
    setHourInTimezone so tz t h =
      msPerDay * getDateStringInTimezone tz t + h * msPerHour - tz * msPerMin := by
  obtain ⟨k, hk⟩ : (60 : Int) ∣ (so - tz) := Int.dvd_of_emod_eq_zero hcong
  have hq : (t + tz * msPerMin) / msPerHour / 24 = (t + tz * msPerMin) / msPerDay := by
    have h24 := int_ediv_ediv (t + tz * msPerMin) msPerHour 24
      (by norm_num [msPerHour]) (by norm_num)
    rw [h24]
    norm_num [msPerHour, msPerDay]
  have heq := setHourInTimezone_eq so tz t h
  have hw : t + (h - getHourInTimezone tz t) * msPerHour + so * msPerMin
      = (t + tz * msPerMin) + (h - getHourInTimezone tz t + k) * msPerHour := by
    simp only [msPerHour, msPerMin]
    linear_combination (60000 : Int) * hk
  have hmodeq : (t + (h - getHourInTimezone tz t) * msPerHour + so * msPerMin) % msPerHour
      = (t + tz * msPerMin) % msPerHour := by
    rw [hw, Int.add_mul_emod_self]
  have hmod : (t + tz * msPerMin) % msPerHour
      = (t + tz * msPerMin) - msPerHour * ((t + tz * msPerMin) / msPerHour) :=
    Int.emod_def _ _
  have hlh : getHourInTimezone tz t
      = (t + tz * msPerMin) / msPerHour - 24 * ((t + tz * msPerMin) / msPerDay) := by
    simp only [getHourInTimezone]
    rw [Int.emod_def, hq]
  rw [heq, hmodeq, hmod]
  simp only [getDateStringInTimezone]
  rw [hlh]
  simp only [msPerDay, msPerHour, msPerMin] at hk ⊢
  ring

/-- Witness for C1 at a concrete input: server and zone both `Asia/Kolkata`
(+330), `t` = 13620000 (03:47:00 UTC = 09:17:00 local on local day 0,
1970-01-01), hour 9: the result is 03:30:00.000 UTC on that local date. -/
theorem c1_setHourInTimezone_wallclock_witness :
    ((330 : Int) - 330) % 60 = 0 ∧
    setHourInTimezone 330 330 13620000 9 =
      msPerDay * getDateStringInTimezone 330 13620000 + 9 * msPerHour - 330 * msPerMin :=
  ⟨by decide, c1_setHourInTimezone_wallclock 330 330 13620000 9 (by decide)⟩

/-- Claim C1 counterexample.  On a server in a whole-hour zone (offset 0), the
claim fails: with `t` = 13620000 (09:17:00 local `Asia/Kolkata` on local day
0), `setHourInTimezone(t, 9, "Asia/Kolkata")` returns 10800000 = 03:00:00 UTC
— whose Kolkata wall-clock reading is 08:30:00, not 09:00:00.000 — and not
the claimed 12600000 (03:30 UTC on that local date). -/
theorem c1_setHourInTimezone_counterexample :
    setHourInTimezone 0 330 13620000 9 = 10800000 ∧
    getDateStringInTimezone 330 13620000 = 0 ∧
    getHourInTimezone 330 10800000 = 8 ∧
    jsGetMinutes 330 10800000 = 30 ∧
    (10800000 : Int) ≠ msPerDay * 0 + 9 * msPerHour - 330 * msPerMin := by
  decide

end Scheduler

namespace Scheduler

/-- Claim C2.  For a buffered candidate `[s, e)` with `s < e` and a busy period
`[bs, be)` with `bs < be`, the scanner's three-sub-case test is equivalent to
the half-open intersection test `s < be ∧ e > bs`; hence a candidate touching
a busy period only at a boundary is free, and a candidate with any
positive-length intersection is not free. -/
theorem c2_overlap_equivalence (s e bs be : Int) (hse : s < e) (hb : bs < be) :
    (busyOverlap s e bs be = true ↔ (s < be ∧ bs < e)) ∧
    (e = bs → isSlotFree [⟨bs, be⟩] s e = true) ∧
    (s = be → isSlotFree [⟨bs, be⟩] s e = true) ∧
    (s < be → bs < e → isSlotFree [⟨bs, be⟩] s e = false) := by
  simp [busyOverlap, isSlotFree]
  omega

/-- Witness for C2 at `s = 0`, `e = 10`, `bs = 10`, `be = 20`: the buffered
candidate ending exactly at the busy start is free. -/
theorem c2_overlap_equivalence_witness :
    (0 : Int) < 10 ∧ (10 : Int) < 20 ∧
    ((busyOverlap 0 10 10 20 = true ↔ ((0 : Int) < 20 ∧ (10 : Int) < 10)) ∧
     ((10 : Int) = 10 → isSlotFree [⟨10, 20⟩] 0 10 = true) ∧
     ((0 : Int) = 20 → isSlotFree [⟨10, 20⟩] 0 10 = true) ∧
     ((0 : Int) < 20 → (10 : Int) < 10 → isSlotFree [⟨10, 20⟩] 0 10 = false)) :=
  ⟨by decide, by decide, c2_overlap_equivalence 0 10 10 20 (by decide) (by decide)⟩

/-- Claim C8.  A failed free/busy query makes `findAvailableSlotsAdvanced`
surface the error (never any list); a failed provider call makes
`searchEvents` return the empty array; a failed fetch makes
`getLastMeetingOfDay` return `none`. -/
theorem c8_error_propagation (e : ProviderError)
    (so duration startDate endDate date tz now : Int) (opts : SlotOptions)
    (l : List TimeSlot) :
    (findAvailableSlotsAdvanced so (.error e) duration startDate endDate opts now =
        .error "Failed to find available slots") ∧
    (findAvailableSlotsAdvanced so (.error e) duration startDate endDate opts now ≠
        .ok l) ∧
    (searchEvents (.error e) = []) ∧
    (getLastMeetingOfDay so (fun _ _ => .error e) date tz = none) := by
  refine ⟨rfl, by simp [findAvailableSlotsAdvanced], rfl, ?_⟩
  by_cases h : e.status = some 401 <;>
    simp [getLastMeetingOfDay, getEvents, h]

/-- Claim C9 counterexample.  `deleteMeeting` collapses a provider 404/410
("event not found") into the same generic `'Failed to delete meeting'` error
produced for any other provider failure — no distinct `EventNotFound` is
surfaced, so the claim as stated fails at a deleted/nonexistent id. -/
theorem c9_deleteMeeting_counterexample :
    deleteMeeting (.error ⟨some 404, "Not Found"⟩) = .error "Failed to delete meeting" ∧
    deleteMeeting (.error ⟨some 404, "Not Found"⟩) =
      deleteMeeting (.error ⟨none, "network unreachable"⟩) :=
  ⟨rfl, rfl⟩

/-- Claim C9 (amended).  `deleteMeeting` maps every provider failure — a
nonexistent or already-deleted id included — to the single generic error
`'Failed to delete meeting'`, and calling it twice in a row on the same
failing id yields that same (generic, not `EventNotFound`) error both
times. -/
theorem c9_deleteMeeting_generic (e1 e2 : ProviderError) :
    deleteMeeting (.error e1) = .error "Failed to delete meeting" ∧
    deleteMeeting (.error e1) = deleteMeeting (.error e2) :=
  ⟨rfl, rfl⟩

end Scheduler

namespace Scheduler

theorem getHourInTimezone_nonneg (tz t : Int) : 0 ≤ getHourInTimezone tz t :=
  Int.emod_nonneg _ (by norm_num)

theorem getHourInTimezone_lt (tz t : Int) : getHourInTimezone tz t < 24 :=
  Int.emod_lt_of_pos _ (by norm_num)

/-- `setHourInTimezone` lands within the hour below the shifted instant. -/
theorem setHourInTimezone_bounds (so tz t h : Int) :
    t + (h - getHourInTimezone tz t) * msPerHour - msPerHour < setHourInTimezone so tz t h ∧
    setHourInTimezone so tz t h ≤ t + (h - getHourInTimezone tz t) * msPerHour := by
  rw [setHourInTimezone_eq]
  have h1 := Int.emod_nonneg (t + (h - getHourInTimezone tz t) * msPerHour + so * msPerMin)
    (show msPerHour ≠ 0 by norm_num [msPerHour])
  have h2 := Int.emod_lt_of_pos (t + (h - getHourInTimezone tz t) * msPerHour + so * msPerMin)
    (show (0 : Int) < msPerHour by norm_num [msPerHour])
  constructor <;> linarith

/-- With a start hour in `0..`, jumping a day ahead and re-anchoring at
`startHour` strictly advances the cursor. -/
theorem advanceToNextDay_gt (cfg : ScanConfig) (hsh : 0 ≤ cfg.startHour) (c : Int) :
    c < advanceToNextDay cfg c := by
  unfold advanceToNextDay
  have hb := (setHourInTimezone_bounds cfg.serverOff cfg.timezone (c + msPerDay) cfg.startHour).1
  have hlt := getHourInTimezone_lt cfg.timezone (c + msPerDay)
  simp only [msPerDay, msPerHour] at *
  have hmul : (cfg.startHour - getHourInTimezone cfg.timezone (c + 86400000)) * 3600000 ≥
      (0 - 24) * 3600000 + 3600000 := by
    have : cfg.startHour - getHourInTimezone cfg.timezone (c + 86400000) ≥ 0 - 24 + 1 := by omega
    linarith
  linarith

/-- Re-anchoring the same instant at a later hour strictly advances it. -/
theorem setHour_gt_of_hour_lt (so tz c sh : Int) (h : getHourInTimezone tz c < sh) :
    c < setHourInTimezone so tz c sh := by
  have hb := (setHourInTimezone_bounds so tz c sh).1
  simp only [msPerHour] at *
  have hmul : (sh - getHourInTimezone tz c) * 3600000 ≥ 1 * 3600000 := by
    have : sh - getHourInTimezone tz c ≥ 1 := by omega
    linarith
  linarith

/-- Every slot the scan loop returns was in the accumulator already or was
emitted at a cursor position satisfying all branch conditions. -/
theorem scanLoop_mem (cfg : ScanConfig) :
    ∀ (fuel : Nat) (c : Int) (acc : List TimeSlot) (s : TimeSlot),
      s ∈ (scanLoop cfg fuel c acc).1 →
      s ∈ acc ∨ ∃ d, emitConditions cfg d ∧ s = ⟨d, d + cfg.slotDuration, true⟩ := by
  intro fuel
  induction fuel with
  | zero =>
    intro c acc s hs
    rw [scanLoop] at hs
    exact .inl hs
  | succ n ih =>
    intro c acc s hs
    rw [scanLoop] at hs
    split at hs
    case isTrue hcond =>
      split at hs
      case isTrue hexc => exact ih _ _ s hs
      case isFalse hexc =>
        split at hs
        case isTrue hwk => exact ih _ _ s hs
        case isFalse hwk =>
          split at hs
          case isTrue hhr =>
            split at hs
            case isTrue h1 => exact ih _ _ s hs
            case isFalse h1 => exact ih _ _ s hs
          case isFalse hhr =>
            split at hs
            case isTrue hpr => exact ih _ _ s hs
            case isFalse hpr =>
              rw [Prod.map_fst, id_eq] at hs
              rcases ih _ _ s hs with h | h
              · split at h
                case isTrue hfree =>
                  rcases List.mem_append.mp h with h' | h'
                  · exact .inl h'
                  · refine .inr ⟨c, ⟨hcond.1, ?_, ?_, ?_, hfree⟩, List.mem_singleton.mp h'⟩
                    · exact Int.not_lt.mp fun hlt => hhr (.inl hlt)
                    · exact Int.not_lt.mp fun hlt => hhr (.inr hlt)
                    · exact fun husr habs => hpr ⟨husr, habs⟩
                case isFalse hfree => exact .inl h
              · exact .inr h
    case isFalse hcond =>
      exact .inl hs

end Scheduler

namespace Scheduler

/-- With a nonnegative start hour the cursor never moves backwards, so every
slot the loop adds starts at or after the cursor it started from. -/
theorem scanLoop_start_ge (cfg : ScanConfig) (hsh : 0 ≤ cfg.startHour) :
    ∀ (fuel : Nat) (c : Int) (acc : List TimeSlot) (s : TimeSlot),
      s ∈ (scanLoop cfg fuel c acc).1 → s ∈ acc ∨ c ≤ s.start := by
  intro fuel
  induction fuel with
  | zero =>
    intro c acc s hs
    rw [scanLoop] at hs
    exact .inl hs
  | succ n ih =>
    intro c acc s hs
    rw [scanLoop] at hs
    have hadv := advanceToNextDay_gt cfg hsh c
    split at hs
    case isTrue hcond =>
      split at hs
      case isTrue hexc =>
        exact (ih _ _ s hs).imp_right fun h => le_trans (le_of_lt hadv) h
      case isFalse hexc =>
        split at hs
        case isTrue hwk =>
          exact (ih _ _ s hs).imp_right fun h => le_trans (le_of_lt hadv) h
        case isFalse hwk =>
          split at hs
          case isTrue hhr =>
            split at hs
            case isTrue h1 =>
              exact (ih _ _ s hs).imp_right fun h => le_trans (le_of_lt hadv) h
            case isFalse h1 =>
              have hlow : getHourInTimezone cfg.timezone c < cfg.startHour := by
                rcases hhr with h | h
                · exact h
                · exact absurd h h1
              have hstep := setHour_gt_of_hour_lt cfg.serverOff cfg.timezone c cfg.startHour hlow
              exact (ih _ _ s hs).imp_right fun h => le_trans (le_of_lt hstep) h
          case isFalse hhr =>
            split at hs
            case isTrue hpr =>
              exact (ih _ _ s hs).imp_right fun h => le_trans (le_of_lt hadv) h
            case isFalse hpr =>
              rw [Prod.map_fst, id_eq] at hs
              rcases ih _ _ s hs with h | h
              · split at h
                case isTrue hfree =>
                  rcases List.mem_append.mp h with h' | h'
                  · exact .inl h'
                  · rw [List.mem_singleton.mp h']
                    exact .inr (le_refl c)
                case isFalse hfree => exact .inl h
              · refine .inr (le_trans ?_ h)
                simp [msPerMin]
    case isFalse hcond =>
      exact .inl hs

/-- With a nonnegative start hour, consecutive slots in the returned list are
at least 30 minutes apart (in order of emission). -/
theorem scanLoop_pairwise (cfg : ScanConfig) (hsh : 0 ≤ cfg.startHour) :
    ∀ (fuel : Nat) (c : Int) (acc : List TimeSlot),
      (∀ s ∈ acc, s.start + 30 * msPerMin ≤ c) →
      acc.Pairwise (fun a b => a.start + 30 * msPerMin ≤ b.start) →
      (scanLoop cfg fuel c acc).1.Pairwise (fun a b => a.start + 30 * msPerMin ≤ b.start) := by
  intro fuel
  induction fuel with
  | zero =>
    intro c acc hbound hpw
    rw [scanLoop]
    exact hpw
  | succ n ih =>
    intro c acc hbound hpw
    rw [scanLoop]
    have hadv := advanceToNextDay_gt cfg hsh c
    split
    case isTrue hcond =>
      split
      case isTrue hexc =>
        exact ih _ _ (fun s hsm => le_trans (hbound s hsm) (le_of_lt hadv)) hpw
      case isFalse hexc =>
        split
        case isTrue hwk =>
          exact ih _ _ (fun s hsm => le_trans (hbound s hsm) (le_of_lt hadv)) hpw
        case isFalse hwk =>
          split
          case isTrue hhr =>
            split
            case isTrue h1 =>
              exact ih _ _ (fun s hsm => le_trans (hbound s hsm) (le_of_lt hadv)) hpw
            case isFalse h1 =>
              have hlow : getHourInTimezone cfg.timezone c < cfg.startHour := by
                rcases hhr with h | h
                · exact h
                · exact absurd h h1
              have hstep := setHour_gt_of_hour_lt cfg.serverOff cfg.timezone c cfg.startHour hlow
              exact ih _ _ (fun s hsm => le_trans (hbound s hsm) (le_of_lt hstep)) hpw
          case isFalse hhr =>
            split
            case isTrue hpr =>
              exact ih _ _ (fun s hsm => le_trans (hbound s hsm) (le_of_lt hadv)) hpw
            case isFalse hpr =>
              rw [Prod.map_fst, id_eq]
              split
              case isTrue hfree =>
                refine ih _ _ ?_ ?_
                · intro s hsm
                  have hmm : (0 : Int) < msPerMin := by norm_num [msPerMin]
                  rcases List.mem_append.mp hsm with h' | h'
                  · have := hbound s h'
                    linarith
                  · rw [List.mem_singleton.mp h']
                · rw [List.pairwise_append]
                  refine ⟨hpw, List.pairwise_singleton _ _, ?_⟩
                  intro a ha b hb
                  rw [List.mem_singleton.mp hb]
                  exact hbound a ha
              case isFalse hfree =>
                refine ih _ _ (fun s hsm => ?_) hpw
                have hmm : (0 : Int) < msPerMin := by norm_num [msPerMin]
                have := hbound s hsm
                linarith
    case isFalse hcond =>
      exact hpw

/-- The loop accumulates at most 10 slots (the guard `freeSlots.length < 10`
stops further accumulation, independently of the final `slice(0, 5)`). -/
theorem scanLoop_length_le (cfg : ScanConfig) :
    ∀ (fuel : Nat) (c : Int) (acc : List TimeSlot),
      acc.length ≤ 10 → (scanLoop cfg fuel c acc).1.length ≤ 10 := by
  intro fuel
  induction fuel with
  | zero =>
    intro c acc hlen
    rw [scanLoop]
    exact hlen
  | succ n ih =>
    intro c acc hlen
    rw [scanLoop]
    split
    case isTrue hcond =>
      split
      case isTrue hexc => exact ih _ _ hlen
      case isFalse hexc =>
        split
        case isTrue hwk => exact ih _ _ hlen
        case isFalse hwk =>
          split
          case isTrue hhr =>
            split
            case isTrue h1 => exact ih _ _ hlen
            case isFalse h1 => exact ih _ _ hlen
          case isFalse hhr =>
            split
            case isTrue hpr => exact ih _ _ hlen
            case isFalse hpr =>
              rw [Prod.map_fst, id_eq]
              refine ih _ _ ?_
              split
              case isTrue hfree =>
                rw [List.length_append, List.length_singleton]
                omega
              case isFalse hfree => exact hlen
    case isFalse hcond =>
      exact hlen

end Scheduler

namespace Scheduler

/-- Every returned slot was emitted at a cursor satisfying all branch
conditions of the scan loop. -/
theorem calculateFreeSlotsAdvanced_mem (so : Int) (busyPeriods : List TimeInterval)
    (startDate endDate duration now : Int) (opts : SlotOptions) (s : TimeSlot)
    (hs : s ∈ calculateFreeSlotsAdvanced so busyPeriods startDate endDate duration opts now) :
    ∃ d, emitConditions (scanConfigOf so busyPeriods startDate endDate duration opts) d ∧
      s = ⟨d, d + duration * msPerMin, true⟩ := by
  simp only [calculateFreeSlotsAdvanced, calculateFreeSlotsAdvancedFull] at hs
  have hs' := List.take_subset 5 _ hs
  rcases scanLoop_mem (scanConfigOf so busyPeriods startDate endDate duration opts)
      (scanFuel startDate endDate) (initialCursor so startDate opts now) [] s hs' with h | h
  · exact absurd h (List.not_mem_nil s)
  · exact h

/-- Claim C3 (amended).  For a search starting today (in the search timezone)
with `now` past the initial cursor, every returned slot starts no earlier
than `now` rounded up by the source's rule (server-clock minutes in (0,30]
snap to :30, minutes > 30 roll to the next hour, minutes = 0 leave `now`
unchanged).  With `now` at 11:10 that bound is 11:30, giving the claimed
example; but when `now`'s minutes are 0 the bound is `now` itself, not the
next half-hour boundary strictly after `now`. -/
theorem c3_today_rounding (so : Int) (busyPeriods : List TimeInterval)
    (startDate endDate duration now : Int) (opts : SlotOptions)
    (hsh : 0 ≤ resolvedStartHour opts)
    (htoday : getDateStringInTimezone (resolvedTimezone opts) now =
      getDateStringInTimezone (resolvedTimezone opts) startDate)
    (hpast : now > setHourInTimezone so (resolvedTimezone opts) startDate
      (resolvedStartHour opts)) :
    ∀ s ∈ calculateFreeSlotsAdvanced so busyPeriods startDate endDate duration opts now,
      roundUpToHalfHour so now ≤ s.start := by
  intro s hs
  simp only [calculateFreeSlotsAdvanced, calculateFreeSlotsAdvancedFull] at hs
  have hs' := List.take_subset 5 _ hs
  have hcur : initialCursor so startDate opts now = roundUpToHalfHour so now := by
    simp only [initialCursor]
    rw [if_pos ⟨htoday, hpast⟩]
  rw [hcur] at hs'
  rcases scanLoop_start_ge (scanConfigOf so busyPeriods startDate endDate duration opts)
      hsh (scanFuel startDate endDate) (roundUpToHalfHour so now) [] s hs' with h | h
  · exact absurd h (List.not_mem_nil s)
  · exact h

/-- Witness for C3: zone UTC, server at UTC, window starting 2024-02-06
09:00Z, `now` = 2024-02-06 11:10:00Z; the first returned slot starts at
11:30:00Z, i.e. no earlier than `now` rounded up (= 11:30, the claimed
boundary). -/
theorem c3_today_rounding_witness :
    roundUpToHalfHour 0 1707217800000 ≤
      (⟨1707219000000, 1707220800000, true⟩ : TimeSlot).start :=
  c3_today_rounding 0 [] 1707210000000 1707264000000 30 1707217800000 utcOptions
    (by decide) (by decide) (by decide)
    ⟨1707219000000, 1707220800000, true⟩ (by decide)

/-- Claim C3 counterexample.  With `now` = 2024-02-06 11:00:00.000Z exactly
(minutes component 0), the same search returns a slot starting at 11:00:00Z —
earlier than 11:30:00Z, the next half-hour boundary *strictly after* `now` —
so the claim's "strictly after" universal fails. -/
theorem c3_today_rounding_counterexample :
    (⟨1707217200000, 1707219000000, true⟩ : TimeSlot) ∈
      calculateFreeSlotsAdvanced 0 [] 1707210000000 1707264000000 30 utcOptions
        1707217200000 ∧
    (1707217200000 : Int) < 1707219000000 := by
  refine ⟨by decide, by decide⟩

/-- Claim C4 (amended).  The scan loop's internal cap of 10 bounds the number
of *accumulated free slots* before the final truncation to 5 (`slice(0,5)`),
not the number of cursor positions examined; once 10 slots have accumulated
the loop stops and returns what was found. -/
theorem c4_accumulation_cap (so : Int) (busyPeriods : List TimeInterval)
    (startDate endDate duration now : Int) (opts : SlotOptions) :
    (calculateFreeSlotsAdvancedFull so busyPeriods startDate endDate duration opts
        now).1.length ≤ 10 ∧
    calculateFreeSlotsAdvanced so busyPeriods startDate endDate duration opts now =
      (calculateFreeSlotsAdvancedFull so busyPeriods startDate endDate duration opts
        now).1.take 5 :=
  ⟨scanLoop_length_le _ _ _ _ (by simp), rfl⟩

/-- Claim C4 counterexample.  With one busy period 09:00Z-15:00Z on 2024-02-06
and a one-day UTC window, the scan evaluates the busy-overlap check at 18 raw
candidate cursor positions (> 10) and still returns the slots found after the
busy block — the 10 bounds accumulated results, not explored candidates. -/
theorem c4_exploration_cap_counterexample :
    10 < (calculateFreeSlotsAdvancedFull 0 [⟨1707210000000, 1707231600000⟩]
        1707177600000 1707264000000 30 utcOptions 0).2 ∧
    (calculateFreeSlotsAdvancedFull 0 [⟨1707210000000, 1707231600000⟩]
        1707177600000 1707264000000 30 utcOptions 0).1 ≠ [] := by
  refine ⟨by decide, by decide⟩

end Scheduler

namespace Scheduler

/-- Successive returned slots start at least 30 minutes apart. -/
theorem calculateFreeSlotsAdvanced_pairwise_gap (so : Int)
    (busyPeriods : List TimeInterval) (startDate endDate duration now : Int)
    (opts : SlotOptions) (hsh : 0 ≤ resolvedStartHour opts) :
    (calculateFreeSlotsAdvanced so busyPeriods startDate endDate duration opts
        now).Pairwise (fun a b => a.start + 30 * msPerMin ≤ b.start) := by
  have h := scanLoop_pairwise (scanConfigOf so busyPeriods startDate endDate duration opts)
    hsh (scanFuel startDate endDate) (initialCursor so startDate opts now) []
    (fun s hs => absurd hs (List.not_mem_nil s)) List.Pairwise.nil
  exact List.Pairwise.sublist (List.take_sublist 5 _) h

/-- Claim C5.  Every returned slot starts between `startHour` and `endHour`
(wall-clock, search timezone); when `notAfter` is absent the slot's buffered
end additionally never crosses past `endHour` (= 18); when `notAfter` is
supplied that pruning is skipped, and a slot may start exactly at `endHour`
(shown at `notAfter = 10` with a returned slot starting 10:00Z whose buffered
end 10:30 would otherwise have been pruned). -/
theorem c5_hour_bounds (so : Int) (busyPeriods : List TimeInterval)
    (startDate endDate duration now : Int) (opts : SlotOptions) :
    (∀ s ∈ calculateFreeSlotsAdvanced so busyPeriods startDate endDate duration opts now,
      resolvedStartHour opts ≤ getHourInTimezone (resolvedTimezone opts) s.start ∧
      getHourInTimezone (resolvedTimezone opts) s.start ≤ resolvedEndHour opts) ∧
    (opts.notAfter = none →
      ∀ s ∈ calculateFreeSlotsAdvanced so busyPeriods startDate endDate duration opts now,
        ¬(getHourInTimezone (resolvedTimezone opts)
            (s.start + duration * msPerMin + opts.bufferAfter.getD 0 * msPerMin) >
              resolvedEndHour opts ∨
          (getHourInTimezone (resolvedTimezone opts)
              (s.start + duration * msPerMin + opts.bufferAfter.getD 0 * msPerMin) =
                resolvedEndHour opts ∧
            jsGetMinutes so
              (s.start + duration * msPerMin + opts.bufferAfter.getD 0 * msPerMin) > 0))) ∧
    ((⟨1707213600000, 1707215400000, true⟩ : TimeSlot) ∈
        calculateFreeSlotsAdvanced 0 [] 1707177600000 1707436800000 30 notAfter10Options 0 ∧
      getHourInTimezone 0 1707213600000 = 10 ∧ resolvedEndHour notAfter10Options = 10) := by
  refine ⟨?_, ?_, by decide, by decide, by decide⟩
  · intro s hs
    obtain ⟨d, hd, hseq⟩ :=
      calculateFreeSlotsAdvanced_mem so busyPeriods startDate endDate duration now opts s hs
    rw [hseq]
    exact ⟨hd.2.1, hd.2.2.1⟩
  · intro hna s hs
    obtain ⟨d, hd, hseq⟩ :=
      calculateFreeSlotsAdvanced_mem so busyPeriods startDate endDate duration now opts s hs
    rw [hseq]
    intro habs
    have husr :
        ¬((scanConfigOf so busyPeriods startDate endDate duration opts).userSpecifiedEndHour
          = true) := by
      simp [scanConfigOf, hna]
    exact hd.2.2.2.1 husr habs

/-- Witness for C5 at the `notAfter = 10` example: the slot starting 10:00Z
(= hour `endHour`) respects the start-hour bounds. -/
theorem c5_hour_bounds_witness :
    resolvedStartHour notAfter10Options ≤ getHourInTimezone (resolvedTimezone notAfter10Options)
      (⟨1707213600000, 1707215400000, true⟩ : TimeSlot).start ∧
    getHourInTimezone (resolvedTimezone notAfter10Options)
      (⟨1707213600000, 1707215400000, true⟩ : TimeSlot).start ≤
        resolvedEndHour notAfter10Options :=
  (c5_hour_bounds 0 [] 1707177600000 1707436800000 30 0 notAfter10Options).1
    ⟨1707213600000, 1707215400000, true⟩ (by decide)

/-- Claim C6 (amended).  Consecutive returned slots start at least 30 minutes
apart, so the returned slots are pairwise non-overlapping as half-open
intervals `[start, start + duration)` whenever `duration ≤ 30` minutes (the
claim's unconditional form fails for longer durations, which overlap the
30-minute stepping). -/
theorem c6_nonoverlap (so : Int) (busyPeriods : List TimeInterval)
    (startDate endDate duration now : Int) (opts : SlotOptions)
    (hsh : 0 ≤ resolvedStartHour opts) (hdur : duration ≤ 30) :
    (calculateFreeSlotsAdvanced so busyPeriods startDate endDate duration opts
        now).Pairwise (fun a b =>
          a.start + duration * msPerMin ≤ b.start ∨
          b.start + duration * msPerMin ≤ a.start) := by
  refine (calculateFreeSlotsAdvanced_pairwise_gap so busyPeriods startDate endDate duration
    now opts hsh).imp ?_
  intro a b hab
  left
  have hmm : (0 : Int) ≤ msPerMin := by norm_num [msPerMin]
  have := mul_le_mul_of_nonneg_right hdur hmm
  linarith

/-- Witness for C6 at a concrete run (duration 30, one-day UTC window). -/
theorem c6_nonoverlap_witness :
    (calculateFreeSlotsAdvanced 0 [] 1707177600000 1707264000000 30 utcOptions
        0).Pairwise (fun a b =>
          a.start + 30 * msPerMin ≤ b.start ∨ b.start + 30 * msPerMin ≤ a.start) :=
  c6_nonoverlap 0 [] 1707177600000 1707264000000 30 0 utcOptions (by decide) (by decide)

/-- Claim C6 counterexample.  With duration 60 and no busy periods the scan
returns slots at 09:00Z and 09:30Z on 2024-02-06, two distinct slots whose
half-open one-hour intervals overlap. -/
theorem c6_nonoverlap_counterexample :
    (⟨1707210000000, 1707213600000, true⟩ : TimeSlot) ∈
      calculateFreeSlotsAdvanced 0 [] 1707177600000 1707264000000 60 utcOptions 0 ∧
    (⟨1707211800000, 1707215400000, true⟩ : TimeSlot) ∈
      calculateFreeSlotsAdvanced 0 [] 1707177600000 1707264000000 60 utcOptions 0 ∧
    (⟨1707210000000, 1707213600000, true⟩ : TimeSlot) ≠
      (⟨1707211800000, 1707215400000, true⟩ : TimeSlot) ∧
    ¬((1707210000000 : Int) + 60 * msPerMin ≤ 1707211800000 ∨
      (1707211800000 : Int) + 60 * msPerMin ≤ 1707210000000) := by
  refine ⟨by decide, by decide, by decide, by decide⟩

/-- Claim C7.  The returned list has at most 5 slots, in non-decreasing
start-time order (the order of discovery; the scan never reorders). -/
theorem c7_cap_and_order (so : Int) (busyPeriods : List TimeInterval)
    (startDate endDate duration now : Int) (opts : SlotOptions)
    (hsh : 0 ≤ resolvedStartHour opts) :
    (calculateFreeSlotsAdvanced so busyPeriods startDate endDate duration opts
        now).length ≤ 5 ∧
    (calculateFreeSlotsAdvanced so busyPeriods startDate endDate duration opts
        now).Pairwise (fun a b => a.start ≤ b.start) := by
  constructor
  · simp only [calculateFreeSlotsAdvanced]
    exact List.length_take_le 5 _
  · refine (calculateFreeSlotsAdvanced_pairwise_gap so busyPeriods startDate endDate duration
      now opts hsh).imp ?_
    intro a b hab
    have hmm : (0 : Int) < msPerMin := by norm_num [msPerMin]
    linarith

/-- Witness for C7 at a concrete run. -/
theorem c7_cap_and_order_witness :
    (calculateFreeSlotsAdvanced 0 [] 1707177600000 1707264000000 30 utcOptions
        0).length ≤ 5 ∧
    (calculateFreeSlotsAdvanced 0 [] 1707177600000 1707264000000 30 utcOptions
        0).Pairwise (fun a b => a.start ≤ b.start) :=
  c7_cap_and_order 0 [] 1707177600000 1707264000000 30 0 utcOptions (by decide)

/-- Claim C10.  The scanner does not clamp the cursor to the window start: a
window starting 2024-02-06 14:37Z (local hour 14 > `startHour` = 9, not
today) yields a slot starting 09:00Z, strictly before the window start; yet
every returned slot always starts strictly before `windowEnd` (the loop
guard). -/
theorem c10_cursor_before_window_start (so : Int) (busyPeriods : List TimeInterval)
    (startDate endDate duration now : Int) (opts : SlotOptions) :
    ((⟨1707210000000, 1707211800000, true⟩ : TimeSlot) ∈
        calculateFreeSlotsAdvanced 0 [] 1707230220000 1707264000000 30 utcOptions 0 ∧
      (1707210000000 : Int) < 1707230220000) ∧
    (∀ s ∈ calculateFreeSlotsAdvanced so busyPeriods startDate endDate duration opts now,
      s.start < endDate) := by
  refine ⟨⟨by decide, by decide⟩, ?_⟩
  intro s hs
  obtain ⟨d, hd, hseq⟩ :=
    calculateFreeSlotsAdvanced_mem so busyPeriods startDate endDate duration now opts s hs
  rw [hseq]
  exact hd.1

/-- Witness for C10's universal part at the same concrete run: the slot
starting 09:00Z is before the window end. -/
theorem c10_cursor_before_window_start_witness :
    (⟨1707210000000, 1707211800000, true⟩ : TimeSlot).start < 1707264000000 :=
  (c10_cursor_before_window_start 0 [] 1707230220000 1707264000000 30 0 utcOptions).2
    ⟨1707210000000, 1707211800000, true⟩ (by decide)

end Scheduler
